import Mathlib

/-!
# Fastbreak event dashboard: verification of the store and gate layer

This development shallowly embeds the server-action layer of the Fastbreak
event-dashboard application: the five event-store operations of
`src/app/actions/auth.ts` (`getEvents`, `getEventById`, `createEvent`,
`updateEvent`, `deleteEvent`, all wrapped by `handleAction`), the request
middleware of `src/middleware.ts`, and the client-side `eventFormSchema`
validator.

Modelling conventions:
* The external relational store is a `Store`: a list of event rows and a list
  of venue rows.  Row visibility (row-level security) is modelled by taking
  `Store` to be the set of rows visible to the caller.
* Every remote call that can fail in the real system takes an extra
  `Option String` argument: `none` means the external service succeeded,
  `some m` means it reported an error whose message is `m`.  The application
  code turns such an error into a thrown `Error(m)`, modelled as
  `Except.error m`, which `handleAction` normalizes.
* The authenticated session (`supabase.auth.getUser()`) is an
  `Option AuthUser`.
* Database-generated values (fresh ids, timestamps) are explicit parameters
  (`newId`, `now`, `venueIds`).
* PostgREST's `.ilike('name', pat)` is modelled as SQL `ILIKE`: a
  case-insensitive match of the whole name against the pattern, where `'%'`
  matches any substring and `'_'` any single character.  The application
  interpolates the raw user search text into the pattern, so wildcard
  characters in the search text are live.  Backslash escape sequences are not
  modelled; the hypotheses used below exclude `'\\'` from the search text.
* The `ORDER BY date_time` of the store is modelled by a lexicographic
  comparison of the stored date-time strings (ISO-8601 strings compare in
  chronological order), realised with `List.insertionSort`.
* The `ON DELETE CASCADE` foreign key of the `venues` table (documented in
  the source of `deleteEvent`) is part of the store model: deleting an event
  row also removes the venue rows referencing it.
-/

namespace Fastbreak

/-! ## JavaScript value helpers -/

/-- Embeds JavaScript truthiness of an optional string argument
(`if (searchQuery)`): `undefined` and the empty string are falsy. -/
def truthyStr : Option String → Bool
  | none => false
  | some s => !s.isEmpty

/-- Embeds the JavaScript idiom `x || null` applied to an optional string:
an absent or empty string becomes `null`. -/
def orNull : Option String → Option String
  | none => none
  | some s => if s.isEmpty then none else some s

/-! ## Case-insensitive LIKE pattern matching (model of SQL ILIKE) -/

/-- Case-insensitive character comparison, used by the `ILIKE` model. -/
def charEqCI (a b : Char) : Bool := a.toLower == b.toLower

/-- A character that is neither a LIKE wildcard (`'%'`, `'_'`) nor the LIKE
escape character (`'\\'`). -/
def plainChar (c : Char) : Bool := !(c == '%' || c == '_' || c == '\\')

/-- A character list free of LIKE wildcards and escapes. -/
def noWild (l : List Char) : Bool := l.all plainChar

/-- The suffixes of a character list, longest first (the last entry is `[]`). -/
def tailsOf : List Char → List (List Char)
  | [] => [[]]
  | c :: cs => (c :: cs) :: tailsOf cs

/-- Matches a LIKE pattern (first argument) against a whole string (second
argument), comparing ordinary characters case-insensitively: `'%'` matches
any substring (some suffix of the rest of the string continues the match),
`'_'` matches exactly one character. -/
def likeMatch : List Char → List Char → Bool
  | [], s => s.isEmpty
  | p :: ps, s =>
      if p = '%' then (tailsOf s).any (fun t => likeMatch ps t)
      else
        match s with
        | [] => false
        | c :: cs => (p == '_' || charEqCI p c) && likeMatch ps cs

/-- Model of PostgREST's `.ilike(column, pattern)` filter: SQL `ILIKE` of the
column value against the pattern. -/
def ilike (s pat : String) : Bool := likeMatch pat.data s.data

/-- Case-insensitive list prefix test (character lists). -/
def isPrefixCI : List Char → List Char → Bool
  | [], _ => true
  | _ :: _, [] => false
  | p :: ps, c :: cs => charEqCI p c && isPrefixCI ps cs

/-- Case-insensitive list infix test (character lists). -/
def isInfixCI (q : List Char) : List Char → Bool
  | [] => isPrefixCI q []
  | c :: cs => isPrefixCI q (c :: cs) || isInfixCI q cs

/-- The specification's notion of name matching: the string `s` contains `q`
as a case-insensitive substring. -/
def containsCI (s q : String) : Bool := isInfixCI q.data s.data

/-! ## Lexicographic string comparison (model of ORDER BY date_time) -/

/-- Lexicographic comparison of character lists by code point. -/
def lexLe : List Char → List Char → Bool
  | [], _ => true
  | _ :: _, [] => false
  | a :: as, b :: bs => a.toNat < b.toNat || (a.toNat == b.toNat && lexLe as bs)

/-- Lexicographic string comparison; on ISO-8601 date-time strings this is
chronological order, the order used by the store's `ORDER BY date_time`. -/
def strLe (a b : String) : Bool := lexLe a.data b.data

/-! ## Data model (src/lib/types.ts and the external schema) -/

/-- A row of the `events` table (the `Event` interface of
`src/lib/types.ts`, without the optional joined `venues`). -/
structure EventRow where
  id : String
  user_id : String
  name : String
  sport_type : String
  date_time : String
  description : Option String
  created_at : String
  updated_at : String
deriving DecidableEq

/-- A row of the `venues` table (the `Venue` interface of
`src/lib/types.ts`). -/
structure Venue where
  id : String
  event_id : String
  name : String
  address : Option String
  created_at : String
deriving DecidableEq

/-- An event row joined with its venues, as produced by the
`select('*, venues (*)')` queries. -/
structure Event where
  row : EventRow
  venues : List Venue
deriving DecidableEq

/-- The external relational store: the rows of the `events` and `venues`
tables visible to the caller. -/
structure Store where
  events : List EventRow
  venues : List Venue
deriving DecidableEq

/-- The authenticated user returned by `supabase.auth.getUser()`; only its
`id` is used by the actions. -/
structure AuthUser where
  id : String
deriving DecidableEq

/-- One venue entry of the creation input (the `venues` element type of
`CreateEventInput` in `src/lib/types.ts`). -/
structure VenueInput where
  name : String
  address : Option String
deriving DecidableEq

/-- The `CreateEventInput` interface of `src/lib/types.ts`. -/
structure CreateEventInput where
  name : String
  sport_type : String
  date_time : String
  description : Option String
  venues : List VenueInput
deriving DecidableEq

/-- The `UpdateEventInput` interface: `CreateEventInput` plus the id. -/
structure UpdateEventInput extends CreateEventInput where
  id : String
deriving DecidableEq

/-- The `ActionResponse<T>` union of `src/lib/types.ts`:
`{success:true, data} | {success:false, error}`. -/
inductive ActionResponse (T : Type) where
  | success (data : T)
  | failure (error : String)
deriving DecidableEq

/-- Embeds `handleAction` of `src/app/actions/auth.ts`: runs the action body
and normalizes its outcome, turning a thrown error (every throw in the five
operations is `new Error(msg)`) into the structured failure shape carrying
the underlying message.  Totality of this function and of the bodies below
is the embedding of "callers never receive a raised exception". -/
def handleAction {T : Type} : Except String T → ActionResponse T
  | .ok data => .success data
  | .error e => .failure e

/-- The venue rows belonging to an event id (the `venues (*)` join). -/
def venuesOf (st : Store) (eventId : String) : List Venue :=
  st.venues.filter (fun v => v.event_id == eventId)

/-- Joins an event row with its venues, as `select('*, venues (*)')` does. -/
def joinVenues (st : Store) (e : EventRow) : Event :=
  ⟨e, venuesOf st e.id⟩

/-- The ordering used by `.order('date_time', {ascending: true})`. -/
def dateLe (a b : EventRow) : Prop := strLe a.date_time b.date_time = true

instance : DecidableRel dateLe :=
  fun a b => inferInstanceAs (Decidable (strLe a.date_time b.date_time = true))

/-- The error message produced by PostgREST's `.single()` when the query did
not return exactly one row (the not-found failure of `getEventById` and
`updateEvent`). -/
def singleRowErrorMessage : String :=
  "JSON object requested, multiple (or no) rows returned"

/-! ## getEvents (src/app/actions/auth.ts lines 158-184) -/

/-- The name filter of `getEvents`: applied only when `searchQuery` is
truthy, in which case the name is matched against the ILIKE pattern
`'%' + searchQuery + '%'` built by string interpolation. -/
def nameCond (searchQuery : Option String) (e : EventRow) : Bool :=
  if truthyStr searchQuery then ilike e.name ("%" ++ searchQuery.getD "" ++ "%")
  else true

/-- The sport filter of `getEvents`: applied only when `sportFilter` is
truthy and different from the sentinel `"all"`, in which case it is an exact
`.eq('sport_type', sportFilter)` match. -/
def sportCond (sportFilter : Option String) (e : EventRow) : Bool :=
  if truthyStr sportFilter && sportFilter.getD "" != "all" then
    e.sport_type == sportFilter.getD ""
  else true

/-- Body of `getEvents`: selects events joined with venues, applies the
optional name and sport filters, orders ascending by date-time.  `dbErr`
is the outcome of the single remote query. -/
def getEventsBody (st : Store) (searchQuery sportFilter : Option String)
    (dbErr : Option String) : Except String (List Event) :=
  match dbErr with
  | some m => .error m
  | none =>
      let rows := st.events.filter fun e => nameCond searchQuery e && sportCond sportFilter e
      .ok ((List.insertionSort dateLe rows).map (joinVenues st))

/-- The `getEvents` server action. -/
def getEvents (st : Store) (searchQuery sportFilter : Option String)
    (dbErr : Option String) : ActionResponse (List Event) :=
  handleAction (getEventsBody st searchQuery sportFilter dbErr)

/-! ## getEventById (src/app/actions/auth.ts lines 194-206) -/

/-- Body of `getEventById`: `select('*, venues (*)').eq('id', id).single()`.
The `.single()` call errors unless exactly one row matched. -/
def getEventByIdBody (st : Store) (id : String) (dbErr : Option String) :
    Except String Event :=
  match dbErr with
  | some m => .error m
  | none =>
      match st.events.filter (fun e => e.id == id) with
      | [e] => .ok (joinVenues st e)
      | _ => .error singleRowErrorMessage

/-- The `getEventById` server action. -/
def getEventById (st : Store) (id : String) (dbErr : Option String) :
    ActionResponse Event :=
  handleAction (getEventByIdBody st id dbErr)

/-! ## createEvent (src/app/actions/auth.ts lines 220-263) -/

/-- The event row inserted by `createEvent`: stamped with the caller's id as
owner; `newId`, `created_at` and `updated_at` are database-generated. -/
def mkEventRow (userId : String) (input : CreateEventInput) (newId now : String) :
    EventRow :=
  { id := newId, user_id := userId, name := input.name,
    sport_type := input.sport_type, date_time := input.date_time,
    description := orNull input.description, created_at := now, updated_at := now }

/-- One inserted venue row: `{event_id, name, address: venue.address || null}`
with database-generated id (`venueIds` applied to the position) and
creation timestamp. -/
def mkVenue (eventId : String) (venueIds : Nat → String) (now : String)
    (iv : Nat × VenueInput) : Venue :=
  { id := venueIds iv.1, event_id := eventId, name := iv.2.name,
    address := orNull iv.2.address, created_at := now }

/-- The venue rows inserted for a submitted venue list. -/
def mkVenues (eventId : String) (venueIds : Nat → String) (now : String)
    (vs : List VenueInput) : List Venue :=
  vs.enum.map (mkVenue eventId venueIds now)

/-- Body of `createEvent`: requires a session (`getUser`), inserts the event
row, then — only when the submitted venue list is non-empty — inserts the
venue rows referencing the new event's id.  `insertEventErr` and
`insertVenuesErr` are the outcomes of the two inserts.  A failed second
insert leaves the already-inserted event row in place (non-atomicity). -/
def createEventBody (st : Store) (user : Option AuthUser) (input : CreateEventInput)
    (newId now : String) (venueIds : Nat → String)
    (insertEventErr insertVenuesErr : Option String) :
    Except String EventRow × Store :=
  match user with
  | none => (.error "User not authenticated", st)
  | some u =>
      match insertEventErr with
      | some m => (.error m, st)
      | none =>
          let ev := mkEventRow u.id input newId now
          let st1 : Store := { st with events := st.events ++ [ev] }
          if input.venues.isEmpty then (.ok ev, st1)
          else
            match insertVenuesErr with
            | some m => (.error m, st1)
            | none =>
                (.ok ev, { st1 with venues := st1.venues ++ mkVenues ev.id venueIds now input.venues })

/-- The `createEvent` server action: normalized result plus resulting store. -/
def createEvent (st : Store) (user : Option AuthUser) (input : CreateEventInput)
    (newId now : String) (venueIds : Nat → String)
    (insertEventErr insertVenuesErr : Option String) :
    ActionResponse EventRow × Store :=
  let r := createEventBody st user input newId now venueIds insertEventErr insertVenuesErr
  (handleAction r.1, r.2)

/-! ## updateEvent (src/app/actions/auth.ts lines 275-323) -/

/-- The field update applied by `updateEvent` to a matching event row:
mutable fields are overwritten, `updated_at` is set to the current time;
`id`, `user_id` and `created_at` are untouched. -/
def updatedRow (input : UpdateEventInput) (now : String) (e : EventRow) : EventRow :=
  { e with
      name := input.name, sport_type := input.sport_type,
      date_time := input.date_time, description := orNull input.description,
      updated_at := now }

/-- Body of `updateEvent`: updates the event row (`.eq('id', ...).single()`,
which updates every matching row and then errors unless exactly one row
matched), deletes all venues of that event id, then — when the submitted
venue list is non-empty — inserts the new venue rows.  `updateErr`,
`deleteErr` and `insertErr` are the outcomes of the three remote calls.
A failure between the delete and the insert leaves the updated event with
zero venues (non-atomicity). -/
def updateEventBody (st : Store) (input : UpdateEventInput) (now : String)
    (venueIds : Nat → String) (updateErr deleteErr insertErr : Option String) :
    Except String EventRow × Store :=
  match updateErr with
  | some m => (.error m, st)
  | none =>
      let st1 : Store :=
        { st with events := st.events.map fun e =>
            if e.id == input.id then updatedRow input now e else e }
      match st.events.filter (fun e => e.id == input.id) with
      | [old] =>
          let ev := updatedRow input now old
          match deleteErr with
          | some m => (.error m, st1)
          | none =>
              let st2 : Store :=
                { st1 with venues := st1.venues.filter fun v => !(v.event_id == input.id) }
              if input.venues.isEmpty then (.ok ev, st2)
              else
                match insertErr with
                | some m => (.error m, st2)
                | none =>
                    (.ok ev, { st2 with venues := st2.venues ++ mkVenues ev.id venueIds now input.venues })
      | _ => (.error singleRowErrorMessage, st1)

/-- The `updateEvent` server action: normalized result plus resulting store. -/
def updateEvent (st : Store) (input : UpdateEventInput) (now : String)
    (venueIds : Nat → String) (updateErr deleteErr insertErr : Option String) :
    ActionResponse EventRow × Store :=
  let r := updateEventBody st input now venueIds updateErr deleteErr insertErr
  (handleAction r.1, r.2)

/-! ## deleteEvent (src/app/actions/auth.ts lines 333-347) -/

/-- Body of `deleteEvent`: deletes the event rows matching the id with one
remote call.  The removal of the venue rows referencing the id is the
store's documented `ON DELETE CASCADE` constraint, not application logic. -/
def deleteEventBody (st : Store) (id : String) (deleteErr : Option String) :
    Except String Unit × Store :=
  match deleteErr with
  | some m => (.error m, st)
  | none =>
      (.ok (), { events := st.events.filter fun e => !(e.id == id),
                 venues := st.venues.filter fun v => !(v.event_id == id) })

/-- The `deleteEvent` server action: normalized result plus resulting store. -/
def deleteEvent (st : Store) (id : String) (deleteErr : Option String) :
    ActionResponse Unit × Store :=
  let r := deleteEventBody st id deleteErr
  (handleAction r.1, r.2)

/-! ## Session gate (src/middleware.ts lines 63-82) -/

/-- Outcome of the session gate for one request: a redirect to a target
path, or passing the request through (returning the possibly refreshed
session response). -/
inductive GateOutcome where
  | redirect (target : String)
  | next
deriving DecidableEq

/-- Embeds `String.startsWith` on the character lists of the strings. -/
def startsWithStr (s pre : String) : Bool := pre.data.isPrefixOf s.data

/-- A path under the protected route set of the middleware
(`/dashboard...` or `/events...`). -/
def isProtectedPath (path : String) : Bool :=
  startsWithStr path "/dashboard" || startsWithStr path "/events"

/-- The login path, the signup path, or the root path. -/
def isAuthOrRootPath (path : String) : Bool :=
  path == "/login" || path == "/signup" || path == "/"

/-- The middleware decision: unauthenticated access to a protected path
redirects to `/login`; authenticated access to the login, signup or root
path redirects to `/dashboard`; otherwise the request passes through with
the refreshed session cookies. -/
def middleware (user : Option AuthUser) (path : String) : GateOutcome :=
  if user.isNone && isProtectedPath path then .redirect "/login"
  else if user.isSome && isAuthOrRootPath path then .redirect "/dashboard"
  else .next

/-! ## Client-side form validation (eventFormSchema, src/unnamed/part_000) -/

/-- The zod `eventFormSchema` of the event form, as a validator: name
non-empty and at most 100 characters, sport type and date-time non-empty,
description at most 500 characters, and at least one venue, each with a
non-empty name of at most 100 characters and an address of at most 200
characters. -/
def eventFormSchema (v : CreateEventInput) : Bool :=
  (1 ≤ v.name.length && v.name.length ≤ 100) &&
  1 ≤ v.sport_type.length &&
  1 ≤ v.date_time.length &&
  (match v.description with | none => true | some d => d.length ≤ 500) &&
  1 ≤ v.venues.length &&
  v.venues.all (fun w =>
    (1 ≤ w.name.length && w.name.length ≤ 100) &&
    (match w.address with | none => true | some a => a.length ≤ 200))

/-! ## Specification-side predicates

These follow the specification's words, for comparison with the behaviour of
the embedded source. -/

/-- Modelled from the spec: "When `searchText` is present, filters to Events
whose name contains it, case-insensitively, as a substring match." -/
def specNameMatch (searchText : Option String) (e : EventRow) : Bool :=
  match searchText with
  | none => true
  | some q => containsCI e.name q

/-- Modelled from the spec: "When `sportCategory` is present and not the
sentinel `all`, filters to exact category match." -/
def specSportMatch (sportCategory : Option String) (e : EventRow) : Bool :=
  match sportCategory with
  | none => true
  | some f => if f == "all" then true else e.sport_type == f

/-- The normalization property of a result: when it is a failure, its error
text is one of the listed underlying messages. -/
def failureMsgIn {T : Type} (r : ActionResponse T) (msgs : List String) : Prop :=
  match r with
  | .success _ => True
  | .failure m => m ∈ msgs

/-! ## Concrete fixtures used by witnesses and counterexamples -/

/-- A Basketball event named "Hoops Night" (the scenario of the spec). -/
def hoopsNightRow : EventRow :=
  ⟨"e1", "u1", "Hoops Night", "Basketball", "2025-07-01T18:00:00", none, "t0", "t0"⟩

/-- A store containing only the "Hoops Night" Basketball event. -/
def hoopsStore : Store := ⟨[hoopsNightRow], []⟩

/-- An event whose name is the three characters `axb`. -/
def axbRow : EventRow :=
  ⟨"e2", "u2", "axb", "Basketball", "2025-01-01T00:00:00", none, "t0", "t0"⟩

/-- A store containing only the `axb` event. -/
def axbStore : Store := ⟨[axbRow], []⟩

/-- A venue row belonging to event `e1`. -/
def courtVenue : Venue := ⟨"v1", "e1", "Court A", none, "t0"⟩

/-- A store with the "Hoops Night" event and its one venue. -/
def sampleStore : Store := ⟨[hoopsNightRow], [courtVenue]⟩

/-- A sample authenticated user. -/
def sampleUser : AuthUser := ⟨"u1"⟩

/-- A sample creation input with one venue. -/
def sampleCreateInput : CreateEventInput :=
  ⟨"Summer Classic", "Basketball", "2025-07-01T18:00:00", none, [⟨"Court A", none⟩]⟩

/-- A sample update input targeting event `e1`, with one venue. -/
def sampleUpdateInput : UpdateEventInput :=
  ⟨⟨"New Name", "Soccer", "2025-02-02T00:00:00", none, [⟨"Field", none⟩]⟩, "e1"⟩

/-- A sample database id generator for venue rows. -/
def sampleVenueIds : Nat → String := fun _ => "nv"

/-! ## Order instances for the date-time comparison -/

instance : IsTotal EventRow dateLe := by
  constructor
  intro a b
  have h : ∀ x y : List Char, lexLe x y = true ∨ lexLe y x = true := by
    intro x
    induction x with
    | nil => intro y; left; rfl
    | cons c cs ih =>
        intro y
        cases y with
        | nil => right; rfl
        | cons d ds =>
            rcases Nat.lt_trichotomy c.toNat d.toNat with hlt | heq | hgt
            · left; simp [lexLe, hlt]
            · rcases ih ds with h1 | h1
              · left; simp [lexLe, heq, h1]
              · right; simp [lexLe, heq, h1]
            · right; simp [lexLe, hgt]
  exact h a.date_time.data b.date_time.data

instance : IsTrans EventRow dateLe := by
  constructor
  intro a b c
  have h : ∀ x y z : List Char,
      lexLe x y = true → lexLe y z = true → lexLe x z = true := by
    intro x
    induction x with
    | nil => intro y z _ _; rfl
    | cons cx xs ih =>
        intro y z hxy hyz
        cases y with
        | nil => simp [lexLe] at hxy
        | cons cy ys =>
            cases z with
            | nil => simp [lexLe] at hyz
            | cons cz zs =>
                simp only [lexLe, Bool.or_eq_true, Bool.and_eq_true, beq_iff_eq,
                  decide_eq_true_eq] at hxy hyz ⊢
                rcases hxy with hxy | ⟨hxy, hxy'⟩
                · rcases hyz with hyz | ⟨hyz, _⟩
                  · exact Or.inl (Nat.lt_trans hxy hyz)
                  · exact Or.inl (hyz ▸ hxy)
                · rcases hyz with hyz | ⟨hyz, hyz'⟩
                  · exact Or.inl (hxy ▸ hyz)
                  · exact Or.inr ⟨hxy.trans hyz, ih ys zs hxy' hyz'⟩
  exact h a.date_time.data b.date_time.data c.date_time.data

/-! ## Lemmas about the ILIKE model -/

theorem isInfixCI_nil (s : List Char) : isInfixCI [] s = true := by
  induction s with
  | nil => rfl
  | cons c cs ih => simp [isInfixCI, isPrefixCI, ih]

theorem tailsOf_any_nil (s : List Char) :
    (tailsOf s).any (fun t => t.isEmpty) = true := by
  induction s with
  | nil => rfl
  | cons c cs ih => simp [tailsOf, List.any_cons, ih]

theorem likeMatch_plain_percent :
    ∀ (q : List Char), noWild q = true →
      ∀ s, likeMatch (q ++ ['%']) s = isPrefixCI q s := by
  intro q
  induction q with
  | nil =>
      intro _ s
      show likeMatch ['%'] s = true
      simp [likeMatch, tailsOf_any_nil]
  | cons a q' ih =>
      intro hq s
      rw [noWild, List.all_cons, Bool.and_eq_true] at hq
      have ha : ¬(a = '%') ∧ ¬(a = '_') ∧ ¬(a = '\\') := by
        have h1 := hq.1
        rw [plainChar] at h1
        simpa [and_assoc] using h1
      have hb : (a == '_') = false := by simp [ha.2.1]
      cases s with
      | nil => simp [likeMatch, isPrefixCI, ha.1]
      | cons c cs =>
          have hih := ih hq.2 cs
          simp [likeMatch, isPrefixCI, ha.1, hb, hih]

theorem isInfixCI_eq_any (q : List Char) :
    ∀ s, isInfixCI q s = (tailsOf s).any (fun t => isPrefixCI q t) := by
  intro s
  induction s with
  | nil => simp [isInfixCI, tailsOf]
  | cons c cs ih => simp [isInfixCI, tailsOf, List.any_cons, ih]

theorem likeMatch_pct_wrap (q : List Char) (hq : noWild q = true) (s : List Char) :
    likeMatch ('%' :: (q ++ ['%'])) s = isInfixCI q s := by
  have h1 : likeMatch ('%' :: (q ++ ['%'])) s
      = (tailsOf s).any (fun t => likeMatch (q ++ ['%']) t) := by
    simp [likeMatch]
  rw [h1, isInfixCI_eq_any]
  simp only [likeMatch_plain_percent q hq]

theorem ilike_eq_containsCI (s q : String) (hq : noWild q.data = true) :
    ilike s ("%" ++ q ++ "%") = containsCI s q := by
  have hd : ("%" ++ q ++ "%").data = '%' :: (q.data ++ ['%']) := by
    simp [String.data_append]
  rw [ilike, hd, likeMatch_pct_wrap q.data hq, containsCI]

/-- Relates the case-insensitive prefix test to lowercased list prefixes. -/
theorem isPrefixCI_iff :
    ∀ (q s : List Char),
      isPrefixCI q s = true ↔ (q.map Char.toLower) <+: (s.map Char.toLower) := by
  intro q
  induction q with
  | nil => intro s; simp [isPrefixCI]
  | cons a as ih =>
      intro s
      cases s with
      | nil => simp [isPrefixCI]
      | cons b bs =>
          simp [isPrefixCI, charEqCI, List.cons_prefix_cons, Bool.and_eq_true,
            beq_iff_eq, ih bs, and_comm]

theorem isInfixCI_iff (q : List Char) :
    ∀ s, isInfixCI q s = true ↔ (q.map Char.toLower) <:+: (s.map Char.toLower) := by
  intro s
  induction s with
  | nil => simp [isInfixCI, isPrefixCI_iff, List.infix_nil, List.prefix_nil]
  | cons c cs ih => simp [isInfixCI, isPrefixCI_iff, List.infix_cons_iff, ih]

/-- Relates the case-insensitive infix test to lowercased list infixes: the
name filter of the specification is containment of the lowercased search
text in the lowercased name. -/
theorem containsCI_iff (s q : String) :
    containsCI s q = true ↔ (q.data.map Char.toLower) <:+: (s.data.map Char.toLower) :=
  isInfixCI_iff q.data s.data

/-! ## General list lemmas for the store proofs -/

theorem filter_map_pres {α : Type} (p : α → Bool) (g : α → α)
    (hp : ∀ a, p (g a) = p a) (l : List α) :
    (l.map g).filter p = (l.filter p).map g := by
  induction l with
  | nil => rfl
  | cons a l ih =>
      cases h : p a with
      | true => simp [List.filter_cons, hp a, h, ih]
      | false => simp [List.filter_cons, hp a, h, ih]

theorem map_idem {α : Type} (g : α → α) (hg : ∀ a, g (g a) = g a) (l : List α) :
    (l.map g).map g = l.map g := by
  induction l with
  | nil => rfl
  | cons a l ih => simp [hg a, ih]

theorem filter_of_filter_not {α : Type} (p : α → Bool) (l : List α) :
    (l.filter fun a => !(p a)).filter p = [] := by
  rw [List.filter_eq_nil_iff]
  intro a ha
  have h2 := (List.mem_filter.mp ha).2
  simp only [Bool.not_eq_true'] at h2
  simp [h2]

theorem filter_not_idem {α : Type} (p : α → Bool) (l : List α) :
    ((l.filter fun a => !(p a)).filter fun a => !(p a)) = l.filter fun a => !(p a) := by
  rw [List.filter_filter]
  exact List.filter_congr (fun a _ => by cases p a <;> rfl)

theorem filter_eq_singleton_of_nodup (l : List EventRow) (i : String)
    (hnd : (l.map EventRow.id).Nodup) (e : EventRow) (he : e ∈ l) (hid : e.id = i) :
    l.filter (fun x => x.id == i) = [e] := by
  induction l with
  | nil => cases he
  | cons a l ih =>
      rw [List.map_cons, List.nodup_cons] at hnd
      rcases List.mem_cons.mp he with rfl | he'
      · have hpa : (e.id == i) = true := by simp [hid]
        rw [List.filter_cons, if_pos hpa]
        have : l.filter (fun x => x.id == i) = [] := by
          rw [List.filter_eq_nil_iff]
          intro x hx hbeq
          rw [beq_iff_eq] at hbeq
          exact hnd.1 (List.mem_map.mpr ⟨x, hx, hbeq.trans hid.symm⟩)
        rw [this]
      · have hpa : (a.id == i) = false := by
          rw [beq_eq_false_iff_ne]
          intro haid
          exact hnd.1 (List.mem_map.mpr ⟨e, he', hid.trans haid.symm⟩)
        rw [List.filter_cons, if_neg (by simp [hpa])]
        exact ih hnd.2 he'

theorem event_id_of_mem_mkVenues (eid : String) (venueIds : Nat → String)
    (now : String) (vs : List VenueInput) (v : Venue)
    (hv : v ∈ mkVenues eid venueIds now vs) : v.event_id = eid := by
  rcases List.mem_map.mp hv with ⟨iv, _, rfl⟩
  rfl

theorem filter_not_mkVenues (eid : String) (venueIds : Nat → String)
    (now : String) (vs : List VenueInput) :
    (mkVenues eid venueIds now vs).filter (fun v => !(v.event_id == eid)) = [] := by
  rw [List.filter_eq_nil_iff]
  intro v hv
  simp [event_id_of_mem_mkVenues eid venueIds now vs v hv]

/-! ## The filters of getEvents against the specification predicates -/

theorem nameCond_eq_spec (sq : Option String) (e : EventRow)
    (hq : ∀ q, sq = some q → noWild q.data = true) :
    nameCond sq e = specNameMatch sq e := by
  cases sq with
  | none => rfl
  | some q =>
      cases hqe : q.isEmpty with
      | true =>
          have hq0 : q = "" := (String.isEmpty_iff q).mp hqe
          subst hq0
          simp [nameCond, truthyStr, specNameMatch, containsCI, isInfixCI_nil]
          exact Or.inl (by decide)
      | false =>
          simp only [nameCond, truthyStr, hqe, Bool.not_false, if_pos, Option.getD_some,
            specNameMatch]
          exact ilike_eq_containsCI e.name q (hq q rfl)

theorem sportCond_eq_spec (sf : Option String) (e : EventRow) (hf : sf ≠ some "") :
    sportCond sf e = specSportMatch sf e := by
  cases sf with
  | none => rfl
  | some f =>
      have hfe : ¬(f = "") := fun h => hf (by rw [h])
      have hfe' : f.isEmpty = false := by
        cases hh : f.isEmpty with
        | true => exact absurd ((String.isEmpty_iff f).mp hh) hfe
        | false => rfl
      by_cases hall : f = "all"
      · subst hall
        simp [sportCond, truthyStr, specSportMatch]
      · simp [sportCond, truthyStr, hfe', specSportMatch, hall]

/-! ## Claim C1 -/

/-- Claim C1, amended.  For every store state and pair of optional filters
such that the search text (when present) contains no SQL LIKE
metacharacter (`%`, `_`, `\\`) and the sport category is not the present
empty string, `listEvents` returns exactly the events whose name contains
the search text as a case-insensitive substring (when present) and whose
sport category equals the category exactly (when present and not the
sentinel `all`), each joined with its venues, ordered non-decreasing by
scheduled date-time.  (The unamended claim fails on search texts holding
wildcard characters, which the code passes unescaped into the LIKE
pattern, and on a present-but-empty sport category, which the code treats
as absent; see the counterexample.) -/
theorem getEvents_filters_and_orders (st : Store) (searchText sportCategory : Option String)
    (hq : ∀ q, searchText = some q → noWild q.data = true)
    (hf : sportCategory ≠ some "") :
    ∃ l, getEvents st searchText sportCategory none = .success l
      ∧ List.Sorted dateLe (l.map Event.row)
      ∧ (l.map Event.row).Perm
          (st.events.filter fun e => specNameMatch searchText e && specSportMatch sportCategory e)
      ∧ ∀ ev ∈ l, ev.venues = venuesOf st ev.row.id := by
  refine ⟨(List.insertionSort dateLe (st.events.filter fun e =>
      nameCond searchText e && sportCond sportCategory e)).map (joinVenues st),
    rfl, ?_, ?_, ?_⟩
  case _ =>
    have hmap : ((List.insertionSort dateLe (st.events.filter fun e =>
        nameCond searchText e && sportCond sportCategory e)).map (joinVenues st)).map Event.row
        = List.insertionSort dateLe (st.events.filter fun e =>
            nameCond searchText e && sportCond sportCategory e) := by
      rw [List.map_map]
      exact List.map_id _
    rw [hmap]
    exact List.sorted_insertionSort dateLe _
  case _ =>
    have hmap : ((List.insertionSort dateLe (st.events.filter fun e =>
        nameCond searchText e && sportCond sportCategory e)).map (joinVenues st)).map Event.row
        = List.insertionSort dateLe (st.events.filter fun e =>
            nameCond searchText e && sportCond sportCategory e) := by
      rw [List.map_map]
      exact List.map_id _
    rw [hmap]
    have hfil : (st.events.filter fun e => nameCond searchText e && sportCond sportCategory e)
        = st.events.filter fun e => specNameMatch searchText e && specSportMatch sportCategory e :=
      List.filter_congr (fun e _ => by
        rw [nameCond_eq_spec searchText e hq, sportCond_eq_spec sportCategory e hf])
    rw [hfil]
    exact List.perm_insertionSort dateLe _
  case _ =>
    intro ev hev
    rcases List.mem_map.mp hev with ⟨e, _, rfl⟩
    rfl

/-- Claim C1, counterexample to the unamended statement at two concrete
inputs: a search text containing the LIKE wildcard `%` selects the event
named `axb` although `a%b` is not a substring of that name, and a
present-but-empty sport category selects a Basketball event although its
category is not the empty string. -/
theorem getEvents_claim_counterexample :
    (getEvents axbStore (some "a%b") none none = .success [⟨axbRow, []⟩]
      ∧ specNameMatch (some "a%b") axbRow = false)
  ∧ (getEvents hoopsStore none (some "") none = .success [⟨hoopsNightRow, []⟩]
      ∧ specSportMatch (some "") hoopsNightRow = false) := by
  exact ⟨⟨by decide, by decide⟩, by decide, by decide⟩

/-- Claim C1, witness: the amended theorem applied to the spec's scenario
(`listEvents("hoop", "Soccer")` on a store holding only the Basketball
event "Hoops Night"). -/
theorem getEvents_filters_and_orders_witness :
    ∃ l, getEvents hoopsStore (some "hoop") (some "Soccer") none = .success l
      ∧ List.Sorted dateLe (l.map Event.row)
      ∧ (l.map Event.row).Perm (hoopsStore.events.filter fun e =>
          specNameMatch (some "hoop") e && specSportMatch (some "Soccer") e)
      ∧ ∀ ev ∈ l, ev.venues = venuesOf hoopsStore ev.row.id :=
  getEvents_filters_and_orders hoopsStore (some "hoop") (some "Soccer")
    (fun q h => by injection h with h1; subst h1; decide) (by decide)

/-! ## Claim C2 -/

/-- Claim C2.  Without a valid session, `createEvent` returns
`{success:false, error:"User not authenticated"}` and leaves the store
untouched (no event or venue insertion), whatever the other arguments; with
an authenticated caller it appends one event row stamped with the caller's
id as owner and then appends the submitted venue rows referencing the new
event's id. -/
theorem createEvent_requires_auth_and_inserts (st : Store) (u : AuthUser)
    (input : CreateEventInput) (newId now : String) (venueIds : Nat → String)
    (o1 o2 : Option String) :
    createEvent st none input newId now venueIds o1 o2
      = (.failure "User not authenticated", st)
    ∧ createEvent st (some u) input newId now venueIds none none
      = (.success (mkEventRow u.id input newId now),
          ⟨st.events ++ [mkEventRow u.id input newId now],
           st.venues ++ mkVenues newId venueIds now input.venues⟩)
    ∧ (mkEventRow u.id input newId now).user_id = u.id := by
  refine ⟨rfl, ?_, rfl⟩
  cases hv : input.venues with
  | nil => simp [createEvent, createEventBody, hv, mkVenues, handleAction]
  | cons v vs => simp [createEvent, createEventBody, hv, handleAction, mkEventRow]

/-! ## Claim C7 -/

/-- Claim C7.  An authenticated `createEvent` call with an empty venues
array succeeds, inserting the event row and no venue row, so the new event
has zero venues; the "at least one venue" rule lives only in the client
form validator `eventFormSchema`, which rejects the same input. -/
theorem createEvent_empty_venues_ok (st : Store) (u : AuthUser)
    (n sp dt : String) (desc : Option String) (newId now : String)
    (venueIds : Nat → String) (o2 : Option String)
    (hfresh : venuesOf st newId = []) :
    createEvent st (some u) ⟨n, sp, dt, desc, []⟩ newId now venueIds none o2
      = (.success (mkEventRow u.id ⟨n, sp, dt, desc, []⟩ newId now),
          ⟨st.events ++ [mkEventRow u.id ⟨n, sp, dt, desc, []⟩ newId now], st.venues⟩)
    ∧ venuesOf (createEvent st (some u) ⟨n, sp, dt, desc, []⟩ newId now venueIds none o2).2 newId = []
    ∧ eventFormSchema ⟨n, sp, dt, desc, []⟩ = false := by
  have hst : (createEvent st (some u) ⟨n, sp, dt, desc, []⟩ newId now venueIds none o2).2
      = { st with events := st.events ++ [mkEventRow u.id ⟨n, sp, dt, desc, []⟩ newId now] } := rfl
  refine ⟨?_, ?_, ?_⟩
  · cases st
    simp [createEvent, createEventBody, handleAction]
  · rw [hst]
    exact hfresh
  · simp [eventFormSchema]

/-! ## Claim C4 -/

/-- Claim C4.  For an event id present in the store, `deleteEvent` removes
the event row and, through the store's cascading foreign-key constraint,
every venue row whose `event_id` equals that id; a subsequent
`getEvent(id)` returns the not-found failure. -/
theorem deleteEvent_cascades (st : Store) (i : String)
    (h : ∃ e ∈ st.events, e.id = i) :
    deleteEvent st i none
      = (.success (), ⟨st.events.filter fun e => !(e.id == i),
                       st.venues.filter fun v => !(v.event_id == i)⟩)
    ∧ (deleteEvent st i none).2.events.filter (fun e => e.id == i) = []
    ∧ venuesOf (deleteEvent st i none).2 i = []
    ∧ getEventById (deleteEvent st i none).2 i none = .failure singleRowErrorMessage := by
  have hst : (deleteEvent st i none).2
      = ⟨st.events.filter fun e => !(e.id == i),
         st.venues.filter fun v => !(v.event_id == i)⟩ := rfl
  have hev : (deleteEvent st i none).2.events.filter (fun e => e.id == i) = [] := by
    rw [hst]
    exact filter_of_filter_not _ _
  refine ⟨rfl, hev, ?_, ?_⟩
  · rw [venuesOf, hst]
    exact filter_of_filter_not _ _
  · simp [getEventById, getEventByIdBody, hev, handleAction]

/-- Claim C4, witness: deleting event `e1` from the store holding "Hoops
Night" and its venue removes both, and `getEvent("e1")` then fails. -/
theorem deleteEvent_cascades_witness :
    deleteEvent sampleStore "e1" none
      = (.success (), ⟨sampleStore.events.filter fun e => !(e.id == "e1"),
                       sampleStore.venues.filter fun v => !(v.event_id == "e1")⟩)
    ∧ (deleteEvent sampleStore "e1" none).2.events.filter (fun e => e.id == "e1") = []
    ∧ venuesOf (deleteEvent sampleStore "e1" none).2 "e1" = []
    ∧ getEventById (deleteEvent sampleStore "e1" none).2 "e1" none
        = .failure singleRowErrorMessage :=
  deleteEvent_cascades sampleStore "e1" ⟨hoopsNightRow, by decide, rfl⟩

/-! ## Claim C6 -/

/-- Claim C6.  With the store's primary-key invariant (no duplicate event
ids), `getEvent(id)` returns exactly the one event with that id joined with
exactly its current venue rows when such an event is visible, and the
not-found failure when none is. -/
theorem getEventById_exact (st : Store) (i : String)
    (hnd : (st.events.map EventRow.id).Nodup) :
    (∀ e, e ∈ st.events → e.id = i →
      getEventById st i none = .success ⟨e, venuesOf st i⟩)
    ∧ ((∀ e ∈ st.events, ¬(e.id = i)) →
      getEventById st i none = .failure singleRowErrorMessage) := by
  constructor
  · intro e he hid
    have hfil := filter_eq_singleton_of_nodup st.events i hnd e he hid
    simp [getEventById, getEventByIdBody, hfil, handleAction, joinVenues, hid]
  · intro hne
    have hfil : st.events.filter (fun x => x.id == i) = [] := by
      rw [List.filter_eq_nil_iff]
      intro x hx hbeq
      exact hne x hx (by rwa [beq_iff_eq] at hbeq)
    simp [getEventById, getEventByIdBody, hfil, handleAction]

/-- Claim C6, witness: `getEvent("e1")` on the store holding "Hoops Night"
and its venue returns that event with its current venue set. -/
theorem getEventById_exact_witness :
    getEventById sampleStore "e1" none
      = .success ⟨hoopsNightRow, venuesOf sampleStore "e1"⟩ :=
  (getEventById_exact sampleStore "e1" (by decide)).1 hoopsNightRow (by decide) rfl

/-! ## Lemmas about updateEvent -/

theorem updatedRow_id (input : UpdateEventInput) (now : String) (e : EventRow) :
    (updatedRow input now e).id = e.id := rfl

theorem updatedRow_idem (input : UpdateEventInput) (now : String) (e : EventRow) :
    updatedRow input now (updatedRow input now e) = updatedRow input now e := rfl

theorem updRow_cond_pres (input : UpdateEventInput) (now : String) (e : EventRow) :
    (((fun x => if x.id == input.id then updatedRow input now x else x) e).id == input.id)
      = (e.id == input.id) := by
  by_cases h : (e.id == input.id) = true
  · simp only [h, if_pos, updatedRow_id]
  · simp only [Bool.not_eq_true] at h
    simp only [h, Bool.false_eq_true, if_neg, not_false_iff]

theorem updRow_fun_idem (input : UpdateEventInput) (now : String) (e : EventRow) :
    (fun x => if x.id == input.id then updatedRow input now x else x)
      ((fun x => if x.id == input.id then updatedRow input now x else x) e)
    = (fun x => if x.id == input.id then updatedRow input now x else x) e := by
  by_cases h : (e.id == input.id) = true
  · simp only [h, if_pos, updatedRow_id, updatedRow_idem]
  · simp only [Bool.not_eq_true] at h
    simp only [h, Bool.false_eq_true, if_neg, not_false_iff]

/-- Characterization of a successful three-step `updateEvent` body when the
update matched exactly one row. -/
theorem updateEventBody_single (st : Store) (input : UpdateEventInput) (now : String)
    (venueIds : Nat → String) (old : EventRow)
    (hfil : st.events.filter (fun e => e.id == input.id) = [old]) :
    updateEventBody st input now venueIds none none none
      = (.ok (updatedRow input now old),
         ⟨st.events.map (fun e => if e.id == input.id then updatedRow input now e else e),
          (st.venues.filter fun v => !(v.event_id == input.id))
            ++ mkVenues (updatedRow input now old).id venueIds now input.venues⟩) := by
  simp only [updateEventBody]
  rw [hfil]
  cases hv : input.venues with
  | nil => simp [mkVenues]
  | cons a l => simp

/-- Characterization of the `updateEvent` body when the update did not match
exactly one row: the `.single()` error is reported after the update call
already rewrote every matching row. -/
theorem updateEventBody_notsingle (st : Store) (input : UpdateEventInput) (now : String)
    (venueIds : Nat → String)
    (hfil : ∀ old, st.events.filter (fun e => e.id == input.id) ≠ [old]) :
    updateEventBody st input now venueIds none none none
      = (.error singleRowErrorMessage,
         ⟨st.events.map (fun e => if e.id == input.id then updatedRow input now e else e),
          st.venues⟩) := by
  simp only [updateEventBody]

/-- Characterization of the `updateEvent` body when the venue insert (the
third remote call) fails after the update and the venue delete succeeded. -/
theorem updateEventBody_insert_fails (st : Store) (input : UpdateEventInput)
    (now : String) (venueIds : Nat → String) (m : String) (old : EventRow)
    (hfil : st.events.filter (fun e => e.id == input.id) = [old])
    (hne : input.venues ≠ []) :
    updateEventBody st input now venueIds none none (some m)
      = (.error m,
         ⟨st.events.map (fun e => if e.id == input.id then updatedRow input now e else e),
          st.venues.filter fun v => !(v.event_id == input.id)⟩) := by
  simp only [updateEventBody]
  rw [hfil]
  cases hv : input.venues with
  | nil => exact absurd hv hne
  | cons a l => simp

/-! ## Claim C3 -/

/-- Claim C3.  Applying `updateEvent` twice in succession with the same
input (including the same ambient timestamp and the same database id
generator, since `updated_at` and the venue ids are freshly generated on
each call) is idempotent: the second call returns the same result and
leaves the store — the event row and its venue set — exactly as the first
call left it.  This holds both on the success path and on the
`.single()` failure path. -/
theorem updateEvent_idempotent (st : Store) (input : UpdateEventInput) (now : String)
    (venueIds : Nat → String) :
    updateEvent (updateEvent st input now venueIds none none none).2 input now venueIds none none none
      = updateEvent st input now venueIds none none none := by
  have hpres := updRow_cond_pres input now
  have hidem := updRow_fun_idem input now
  have hfil2 : ∀ l : List EventRow,
      ((l.map (fun e => if e.id == input.id then updatedRow input now e else e)).filter
        (fun e => e.id == input.id))
      = ((l.filter (fun e => e.id == input.id)).map
          (fun e => if e.id == input.id then updatedRow input now e else e)) := by
    intro l
    exact filter_map_pres _ _ hpres l
  have hmapidem : ∀ l : List EventRow,
      ((l.map (fun e => if e.id == input.id then updatedRow input now e else e)).map
        (fun e => if e.id == input.id then updatedRow input now e else e))
      = l.map (fun e => if e.id == input.id then updatedRow input now e else e) := by
    intro l
    exact map_idem _ hidem l
  rcases hc : st.events.filter (fun e => e.id == input.id) with _ | ⟨old, rest⟩
  · -- no row matched: both runs fail with the single-row error
    have h1 := updateEventBody_notsingle st input now venueIds
      (fun old h => by rw [hc] at h; cases h)
    have hst1 : (updateEvent st input now venueIds none none none).2
        = ⟨st.events.map (fun e => if e.id == input.id then updatedRow input now e else e),
           st.venues⟩ := by
      show (updateEventBody st input now venueIds none none none).2 = _
      rw [h1]
    have hfilA : ∀ o, ((updateEvent st input now venueIds none none none).2).events.filter
        (fun e => e.id == input.id) ≠ [o] := by
      intro o
      rw [hst1]
      show ((st.events.map _).filter _) ≠ _
      rw [hfil2, hc]
      simp
    have h2 := updateEventBody_notsingle
      (updateEvent st input now venueIds none none none).2 input now venueIds hfilA
    show (handleAction (updateEventBody _ input now venueIds none none none).1,
          (updateEventBody _ input now venueIds none none none).2) = _
    rw [h2, hst1]
    show (handleAction (Except.error singleRowErrorMessage),
          (⟨(st.events.map _).map _, st.venues⟩ : Store))
        = (handleAction (updateEventBody st input now venueIds none none none).1,
           (updateEventBody st input now venueIds none none none).2)
    rw [h1, hmapidem]
  · cases rest with
    | nil =>
        -- exactly one row matched: success path
        have hpold : (old.id == input.id) = true := by
          have hm : old ∈ st.events.filter (fun e => e.id == input.id) := by
            rw [hc]; exact List.mem_singleton_self old
          exact (List.mem_filter.mp hm).2
        have hoi : old.id = input.id := by rwa [beq_iff_eq] at hpold
        have hmkid : (updatedRow input now old).id = input.id := by
          rw [updatedRow_id]; exact hoi
        have h1 := updateEventBody_single st input now venueIds old hc
        have hstA : (updateEvent st input now venueIds none none none).2
            = ⟨st.events.map (fun e => if e.id == input.id then updatedRow input now e else e),
               (st.venues.filter fun v => !(v.event_id == input.id))
                 ++ mkVenues input.id venueIds now input.venues⟩ := by
          show (updateEventBody st input now venueIds none none none).2 = _
          rw [h1, hmkid]
        have hfilA : ((updateEvent st input now venueIds none none none).2).events.filter
            (fun e => e.id == input.id) = [updatedRow input now old] := by
          rw [hstA]
          show ((st.events.map _).filter _) = _
          rw [hfil2, hc, List.map_cons, List.map_nil, if_pos hpold]
        have h2 := updateEventBody_single
          (updateEvent st input now venueIds none none none).2 input now venueIds
          (updatedRow input now old) hfilA
        show (handleAction (updateEventBody (updateEvent st input now venueIds none none none).2
                input now venueIds none none none).1,
              (updateEventBody (updateEvent st input now venueIds none none none).2
                input now venueIds none none none).2)
            = (handleAction (updateEventBody st input now venueIds none none none).1,
               (updateEventBody st input now venueIds none none none).2)
        rw [h2, h1]
        simp [hstA, updatedRow_idem, hmkid, hmapidem, List.filter_append, filter_not_idem,
          filter_not_mkVenues, List.append_nil]
        intro a _ h3
        by_cases h4 : a.id = input.id
        · simp [h4, updatedRow_idem]
        · rw [if_neg h4] at h3 ⊢
          exact absurd h3 h4
    | cons b rest2 =>
        -- more than one row matched: both runs fail with the single-row error
        have h1 := updateEventBody_notsingle st input now venueIds
          (fun o h => by rw [hc] at h; simp at h)
        have hst1 : (updateEvent st input now venueIds none none none).2
            = ⟨st.events.map (fun e => if e.id == input.id then updatedRow input now e else e),
               st.venues⟩ := by
          show (updateEventBody st input now venueIds none none none).2 = _
          rw [h1]
        have hfilA : ∀ o, ((updateEvent st input now venueIds none none none).2).events.filter
            (fun e => e.id == input.id) ≠ [o] := by
          intro o
          rw [hst1]
          show ((st.events.map _).filter _) ≠ _
          rw [hfil2, hc]
          simp
        have h2 := updateEventBody_notsingle
          (updateEvent st input now venueIds none none none).2 input now venueIds hfilA
        show (handleAction (updateEventBody _ input now venueIds none none none).1,
              (updateEventBody _ input now venueIds none none none).2) = _
        rw [h2, hst1]
        show (handleAction (Except.error singleRowErrorMessage),
              (⟨(st.events.map _).map _, st.venues⟩ : Store))
            = (handleAction (updateEventBody st input now venueIds none none none).1,
               (updateEventBody st input now venueIds none none none).2)
        rw [h1, hmapidem]

/-! ## Claim C8 -/

/-- Claim C8.  `updateEvent` runs its three steps in order — event row
update, venue delete, venue insert — without a transaction: when the venue
insert fails after the first two steps succeeded, the operation returns the
failure result while the store is left with the updated event row present
and zero venues for that event id. -/
theorem updateEvent_nonatomic (st : Store) (input : UpdateEventInput) (now : String)
    (venueIds : Nat → String) (m : String) (old : EventRow)
    (hfil : st.events.filter (fun e => e.id == input.id) = [old])
    (hne : input.venues ≠ []) :
    updateEvent st input now venueIds none none (some m)
      = (.failure m,
         ⟨st.events.map (fun e => if e.id == input.id then updatedRow input now e else e),
          st.venues.filter fun v => !(v.event_id == input.id)⟩)
    ∧ venuesOf (updateEvent st input now venueIds none none (some m)).2 input.id = []
    ∧ updatedRow input now old ∈ (updateEvent st input now venueIds none none (some m)).2.events := by
  have h1 := updateEventBody_insert_fails st input now venueIds m old hfil hne
  have hmain : updateEvent st input now venueIds none none (some m)
      = (.failure m,
         ⟨st.events.map (fun e => if e.id == input.id then updatedRow input now e else e),
          st.venues.filter fun v => !(v.event_id == input.id)⟩) := by
    show (handleAction (updateEventBody st input now venueIds none none (some m)).1,
          (updateEventBody st input now venueIds none none (some m)).2) = _
    rw [h1]
    rfl
  have hpold : (old.id == input.id) = true := by
    have : old ∈ st.events.filter (fun e => e.id == input.id) := by
      rw [hfil]; exact List.mem_singleton_self old
    exact (List.mem_filter.mp this).2
  refine ⟨hmain, ?_, ?_⟩
  · rw [venuesOf, hmain]
    exact filter_of_filter_not _ _
  · rw [hmain]
    refine List.mem_map.mpr ⟨old, ?_, ?_⟩
    · have : old ∈ st.events.filter (fun e => e.id == input.id) := by
        rw [hfil]; exact List.mem_singleton_self old
      exact (List.mem_filter.mp this).1
    · simp [hpold]

/-- Claim C8, witness: on the store holding "Hoops Night" and its venue,
an update of event `e1` whose venue insert fails returns the failure result
and leaves the updated event row with zero venues. -/
theorem updateEvent_nonatomic_witness :
    updateEvent sampleStore sampleUpdateInput "t1" sampleVenueIds none none (some "network down")
      = (.failure "network down",
         ⟨sampleStore.events.map (fun e =>
            if e.id == sampleUpdateInput.id then updatedRow sampleUpdateInput "t1" e else e),
          sampleStore.venues.filter fun v => !(v.event_id == sampleUpdateInput.id)⟩)
    ∧ venuesOf (updateEvent sampleStore sampleUpdateInput "t1" sampleVenueIds
        none none (some "network down")).2 sampleUpdateInput.id = []
    ∧ updatedRow sampleUpdateInput "t1" hoopsNightRow
        ∈ (updateEvent sampleStore sampleUpdateInput "t1" sampleVenueIds
            none none (some "network down")).2.events :=
  updateEvent_nonatomic sampleStore sampleUpdateInput "t1" sampleVenueIds
    "network down" hoopsNightRow (by decide) (by decide)

/-- Claim C7, witness: creating an event with an empty venues array as an
authenticated user succeeds with zero venues, while the form validator
rejects that same input. -/
theorem createEvent_empty_venues_ok_witness :
    createEvent sampleStore (some sampleUser) ⟨"Solo", "Tennis", "2025-03-03T10:00:00", none, []⟩
        "e9" "t2" sampleVenueIds none none
      = (.success (mkEventRow sampleUser.id
            ⟨"Solo", "Tennis", "2025-03-03T10:00:00", none, []⟩ "e9" "t2"),
         ⟨sampleStore.events ++ [mkEventRow sampleUser.id
            ⟨"Solo", "Tennis", "2025-03-03T10:00:00", none, []⟩ "e9" "t2"],
          sampleStore.venues⟩)
    ∧ venuesOf (createEvent sampleStore (some sampleUser)
        ⟨"Solo", "Tennis", "2025-03-03T10:00:00", none, []⟩
        "e9" "t2" sampleVenueIds none none).2 "e9" = []
    ∧ eventFormSchema ⟨"Solo", "Tennis", "2025-03-03T10:00:00", none, []⟩ = false :=
  createEvent_empty_venues_ok sampleStore sampleUser "Solo" "Tennis" "2025-03-03T10:00:00"
    none "e9" "t2" sampleVenueIds none (by decide)

/-! ## Failure-message lemmas shared by C5 and C10 -/

theorem getEvents_failure_msgs (st : Store) (sq sf : Option String) (o : Option String) :
    failureMsgIn (getEvents st sq sf o) o.toList := by
  cases o with
  | none => simp [getEvents, getEventsBody, handleAction, failureMsgIn]
  | some m => simp [getEvents, getEventsBody, handleAction, failureMsgIn]

theorem getEventById_failure_msgs (st : Store) (i : String) (o : Option String) :
    failureMsgIn (getEventById st i o) (singleRowErrorMessage :: o.toList) := by
  cases o with
  | some m => simp [getEventById, getEventByIdBody, handleAction, failureMsgIn]
  | none =>
      rcases hfil : st.events.filter (fun e => e.id == i) with _ | ⟨a, _ | ⟨b, l⟩⟩ <;>
        simp [getEventById, getEventByIdBody, handleAction, failureMsgIn, hfil]

theorem createEvent_failure_msgs (st : Store) (user : Option AuthUser)
    (input : CreateEventInput) (newId now : String) (venueIds : Nat → String)
    (o1 o2 : Option String) :
    failureMsgIn (createEvent st user input newId now venueIds o1 o2).1
      ("User not authenticated" :: (o1.toList ++ o2.toList)) := by
  cases user with
  | none => simp [createEvent, createEventBody, handleAction, failureMsgIn]
  | some u =>
      cases o1 with
      | some m => simp [createEvent, createEventBody, handleAction, failureMsgIn]
      | none =>
          cases hv : input.venues with
          | nil => simp [createEvent, createEventBody, handleAction, failureMsgIn, hv]
          | cons a l =>
              cases o2 with
              | some m => simp [createEvent, createEventBody, handleAction, failureMsgIn, hv]
              | none => simp [createEvent, createEventBody, handleAction, failureMsgIn, hv]

theorem updateEvent_failure_msgs (st : Store) (input : UpdateEventInput) (now : String)
    (venueIds : Nat → String) (o1 o2 o3 : Option String) :
    failureMsgIn (updateEvent st input now venueIds o1 o2 o3).1
      (singleRowErrorMessage :: (o1.toList ++ o2.toList ++ o3.toList)) := by
  cases o1 with
  | some m => simp [updateEvent, updateEventBody, handleAction, failureMsgIn]
  | none =>
      rcases hfil : st.events.filter (fun e => e.id == input.id) with _ | ⟨a, _ | ⟨b, l⟩⟩
      · simp [updateEvent, updateEventBody, handleAction, failureMsgIn, hfil]
      · cases o2 with
        | some m => simp [updateEvent, updateEventBody, handleAction, failureMsgIn, hfil]
        | none =>
            cases hv : input.venues with
            | nil => simp [updateEvent, updateEventBody, handleAction, failureMsgIn, hfil, hv]
            | cons x xs =>
                cases o3 with
                | some m =>
                    simp [updateEvent, updateEventBody, handleAction, failureMsgIn, hfil, hv]
                | none =>
                    simp [updateEvent, updateEventBody, handleAction, failureMsgIn, hfil, hv]
      · simp [updateEvent, updateEventBody, handleAction, failureMsgIn, hfil]

theorem deleteEvent_failure_msgs (st : Store) (i : String) (o : Option String) :
    failureMsgIn (deleteEvent st i o).1 o.toList := by
  cases o with
  | some m => simp [deleteEvent, deleteEventBody, handleAction, failureMsgIn]
  | none => simp [deleteEvent, deleteEventBody, handleAction, failureMsgIn]

/-! ## Claim C5 -/

/-- Claim C5.  All five store operations are total functions into the
structured result type (the embedding of "callers never receive a raised
exception"), and whenever the result is a failure its error text is the
message of the underlying error: an injected remote-call error message, the
authentication error of `createEvent`, or the single-row error of the
`.single()` calls. -/
theorem operations_normalize_errors :
    (∀ (st : Store) (sq sf o : Option String),
      failureMsgIn (getEvents st sq sf o) o.toList)
    ∧ (∀ (st : Store) (i : String) (o : Option String),
      failureMsgIn (getEventById st i o) (singleRowErrorMessage :: o.toList))
    ∧ (∀ (st : Store) (user : Option AuthUser) (input : CreateEventInput)
        (newId now : String) (venueIds : Nat → String) (o1 o2 : Option String),
      failureMsgIn (createEvent st user input newId now venueIds o1 o2).1
        ("User not authenticated" :: (o1.toList ++ o2.toList)))
    ∧ (∀ (st : Store) (input : UpdateEventInput) (now : String)
        (venueIds : Nat → String) (o1 o2 o3 : Option String),
      failureMsgIn (updateEvent st input now venueIds o1 o2 o3).1
        (singleRowErrorMessage :: (o1.toList ++ o2.toList ++ o3.toList)))
    ∧ (∀ (st : Store) (i : String) (o : Option String),
      failureMsgIn (deleteEvent st i o).1 o.toList) :=
  ⟨getEvents_failure_msgs, getEventById_failure_msgs, createEvent_failure_msgs,
   updateEvent_failure_msgs, deleteEvent_failure_msgs⟩

/-! ## Claim C9 -/

/-- Claim C9.  The session gate resolves every request to exactly one of
three outcomes: no valid session on a protected path redirects to the login
path; a valid session on the login, signup or root path redirects to the
landing path; anything else passes the request through (with the refreshed
session credential on the forwarded response). -/
theorem middleware_trichotomy (user : Option AuthUser) (path : String) :
    (middleware user path = .redirect "/login"
      ↔ user = none ∧ isProtectedPath path = true)
    ∧ (middleware user path = .redirect "/dashboard"
      ↔ user ≠ none ∧ isAuthOrRootPath path = true)
    ∧ (middleware user path = .next
      ↔ ¬(user = none ∧ isProtectedPath path = true)
        ∧ ¬(user ≠ none ∧ isAuthOrRootPath path = true)) := by
  cases user with
  | none =>
      cases hp : isProtectedPath path with
      | true => simp [middleware, hp]
      | false => simp [middleware, hp]
  | some u =>
      cases ha : isAuthOrRootPath path with
      | true => simp [middleware, ha]
      | false => simp [middleware, ha]

/-! ## Claim C10 -/

/-- Claim C10.  Unlike `createEvent`, neither `updateEvent` nor
`deleteEvent` consults the session: their definitions take no user, every
failure message they can return comes from the external store (an injected
remote error or the `.single()` error), and in particular neither returns
the "User not authenticated" failure unless the external store itself
reports that exact text. -/
theorem update_delete_no_auth_check :
    (∀ (st : Store) (input : UpdateEventInput) (now : String)
        (venueIds : Nat → String) (o1 o2 o3 : Option String) (m : String),
      (updateEvent st input now venueIds o1 o2 o3).1 = .failure m →
        m = singleRowErrorMessage ∨ o1 = some m ∨ o2 = some m ∨ o3 = some m)
    ∧ (∀ (st : Store) (i : String) (o : Option String) (m : String),
      (deleteEvent st i o).1 = .failure m → o = some m)
    ∧ singleRowErrorMessage ≠ "User not authenticated"
    ∧ (∀ (st : Store) (input : UpdateEventInput) (now : String)
        (venueIds : Nat → String) (o1 o2 o3 : Option String),
      some "User not authenticated" ∉ [o1, o2, o3] →
        (updateEvent st input now venueIds o1 o2 o3).1 ≠ .failure "User not authenticated")
    ∧ (∀ (st : Store) (i : String) (o : Option String),
      o ≠ some "User not authenticated" →
        (deleteEvent st i o).1 ≠ .failure "User not authenticated") := by
  have hupd : ∀ (st : Store) (input : UpdateEventInput) (now : String)
      (venueIds : Nat → String) (o1 o2 o3 : Option String) (m : String),
      (updateEvent st input now venueIds o1 o2 o3).1 = .failure m →
        m = singleRowErrorMessage ∨ o1 = some m ∨ o2 = some m ∨ o3 = some m := by
    intro st input now venueIds o1 o2 o3 m h
    have hmsg := updateEvent_failure_msgs st input now venueIds o1 o2 o3
    rw [h] at hmsg
    have hmem : m ∈ singleRowErrorMessage :: (o1.toList ++ o2.toList ++ o3.toList) := hmsg
    simpa [List.mem_append, Option.mem_toList, eq_comm] using hmem
  have hdel : ∀ (st : Store) (i : String) (o : Option String) (m : String),
      (deleteEvent st i o).1 = .failure m → o = some m := by
    intro st i o m h
    have hmsg := deleteEvent_failure_msgs st i o
    rw [h] at hmsg
    have hmem : m ∈ o.toList := hmsg
    simpa [Option.mem_toList, eq_comm] using hmem
  refine ⟨hupd, hdel, by decide, ?_, ?_⟩
  · intro st input now venueIds o1 o2 o3 hno h
    rcases hupd st input now venueIds o1 o2 o3 _ h with h1 | h1 | h1 | h1
    · exact absurd h1.symm (by decide)
    · exact hno (by rw [h1]; exact List.mem_cons_self _ _)
    · exact hno (by rw [h1]; exact List.mem_cons_of_mem _ (List.mem_cons_self _ _))
    · exact hno (by
        rw [h1]
        exact List.mem_cons_of_mem _ (List.mem_cons_of_mem _ (List.mem_cons_self _ _)))
  · intro st i o hno h
    exact hno (hdel st i o _ h)

/-- Claim C10, witness: a failing store call surfaces its own message
through `updateEvent` and `deleteEvent`, and neither operation produces the
authentication failure when the store does not report that text. -/
theorem update_delete_no_auth_check_witness :
    ("boom" = singleRowErrorMessage ∨ (some "boom" : Option String) = some "boom"
      ∨ (none : Option String) = some "boom" ∨ (none : Option String) = some "boom")
    ∧ (some "db down" : Option String) = some "db down"
    ∧ (updateEvent sampleStore sampleUpdateInput "t1" sampleVenueIds
        (some "boom") none none).1 ≠ .failure "User not authenticated"
    ∧ (deleteEvent sampleStore "e1" (some "db down")).1 ≠ .failure "User not authenticated" :=
  ⟨update_delete_no_auth_check.1 sampleStore sampleUpdateInput "t1" sampleVenueIds
      (some "boom") none none "boom" (by decide),
   update_delete_no_auth_check.2.1 sampleStore "e1" (some "db down") "db down" (by decide),
   update_delete_no_auth_check.2.2.2.1 sampleStore sampleUpdateInput "t1" sampleVenueIds
      (some "boom") none none (by decide),
   update_delete_no_auth_check.2.2.2.2 sampleStore "e1" (some "db down") (by decide)⟩

end Fastbreak
